import Mathlib

/-!
# Verification of the blackbox GPU-model control-plane core

Shallow embedding of the pure logic of `blackbox-server` (C++) in Lean 4:
numeric `double` values are modelled as exact rationals (`ℚ`), machine
integers as `ℕ`/`ℤ`, C++ strings as `String`/`List Char`, `std::map` as an
association list with insert-replace, and external effects (docker CLI,
curl, NVML) as explicit inputs to the embedded functions.

Each embedded definition names the C++ function it mirrors and is kept as
close to the source as the translation allows.
-/

namespace Blackbox

/-! ## aggregation_service.cpp -/

/-- Summary statistics record (`AggregatedStats` in `aggregation_service.h`). -/
structure AggregatedStats where
  min : ℚ
  max : ℚ
  avg : ℚ
  p95 : ℚ
  p99 : ℚ
  count : ℕ
deriving Repr, DecidableEq

/-- Mirrors `calculatePercentile` (aggregation_service.cpp lines 11-25):
linear-interpolation percentile over an already-sorted sample list.
`double` arithmetic is modelled exactly over `ℚ`; the `static_cast<size_t>`
of the non-negative floor/ceil is `Int.toNat ∘ Int.floor` / `Int.ceil`. -/
def calculatePercentile (sorted_values : List ℚ) (percentile : ℚ) : ℚ :=
  if sorted_values = [] then 0
  else if sorted_values.length = 1 then sorted_values.getD 0 0
  else
    let index : ℚ := percentile * ((sorted_values.length : ℚ) - 1)
    let lower : ℕ := (Int.floor index).toNat
    let upper : ℕ := (Int.ceil index).toNat
    if lower = upper then sorted_values.getD lower 0
    else
      let weight : ℚ := index - (lower : ℚ)
      sorted_values.getD lower 0 * (1 - weight) + sorted_values.getD upper 0 * weight

/-- Mirrors `calculateStats` (aggregation_service.cpp lines 27-51):
zero stats on empty input, otherwise sort a copy and take front/back,
arithmetic mean, and the 0.95 / 0.99 interpolated percentiles. -/
def calculateStats (values : List ℚ) : AggregatedStats :=
  if values = [] then ⟨0, 0, 0, 0, 0, 0⟩
  else
    let sorted := List.insertionSort (· ≤ ·) values
    { min := sorted.getD 0 0
      max := sorted.getLastD 0
      avg := values.sum / (values.length : ℚ)
      p95 := calculatePercentile sorted (95/100)
      p99 := calculatePercentile sorted (99/100)
      count := values.length }

/-! ## model_manager.cpp : container names -/

/-- ASCII alphanumeric test, as `std::regex` character class `[a-zA-Z0-9]`
used in `getContainerName` (model_manager.cpp line 54). -/
def isAlnumAscii (c : Char) : Bool :=
  ('a' ≤ c && c ≤ 'z') || ('A' ≤ c && c ≤ 'Z') || ('0' ≤ c && c ≤ '9')

/-- The `std::regex_replace(model_id, std::regex("[^a-zA-Z0-9]"), "-")` step
of `getContainerName`: every non-alphanumeric character becomes `-`. -/
def sanitizeModelId (s : String) : String :=
  String.mk (s.data.map (fun c => if isAlnumAscii c then c else '-'))

/-- Mirrors `getContainerName` (model_manager.cpp lines 53-55). -/
def getContainerName (model_id : String) : String :=
  "vllm-" ++ sanitizeModelId model_id

/-! ## model_manager.cpp : port selection -/

/-- The `while (port < max_port)` scan of `getNextAvailablePort`
(model_manager.cpp lines 200-207), with the remaining iteration count as
explicit fuel (the loop runs at most `max_port - start_port = 1000` steps)
and the fallback result of line 210 returned when the fuel runs out. -/
def scanLoop (used : List ℤ) (port : ℤ) (fuel : ℕ) (fallback : ℤ) : ℤ :=
  match fuel with
  | 0 => fallback
  | n + 1 => if port ∈ used then scanLoop used (port + 1) n fallback else port

/-- Mirrors `getNextAvailablePort` (model_manager.cpp lines 178-211).
`used` is the set of ports of the listed deployments (`used_ports`), and
`start_port` the resolved `START_PORT` (default 8000).  If the preferred
port is positive and free it is returned; otherwise the scan starts at
`start_port` over a window of 1000 ports, falling back to `start_port`. -/
def getNextAvailablePort (used : List ℤ) (start_port : ℤ) (preferred_port : ℤ) : ℤ :=
  if preferred_port > 0 && !(preferred_port ∈ used) then preferred_port
  else scanLoop used start_port 1000 start_port

/-! ## model_manager.cpp : in-memory registry (`model_metrics`) -/

/-- Per-container metric record (`ModelMetrics` in model_manager.h). -/
structure ModelMetrics where
  vram_samples : List ℚ
  peak_usage : ℚ
  configured_max_utilization : ℚ
  gpu_type : String
  pid : ℕ
deriving Repr, DecidableEq

/-- The process-wide `std::map<std::string, ModelMetrics> model_metrics`,
modelled as an association list keyed by container name. -/
abbrev Registry := List (String × ModelMetrics)

/-- `model_metrics[container_name] = metrics`: insert or replace. -/
def registryInsert (r : Registry) (name : String) (m : ModelMetrics) : Registry :=
  match r with
  | [] => [(name, m)]
  | (k, v) :: rest =>
    if k = name then (k, m) :: rest else (k, v) :: registryInsert rest name m

/-- `model_metrics.find(container_name)` as an association-list lookup. -/
def registryLookup (r : Registry) (name : String) : Option ModelMetrics :=
  match r with
  | [] => none
  | (k, v) :: rest => if k = name then some v else registryLookup rest name

/-- Mirrors `registerModelDeployment` (model_manager.cpp lines 259-267):
a fresh record with empty sample ring and zero peak replaces any record
with the same container name.  (`model_id` is accepted but, as in the
source, not stored: `ModelMetrics` has no model-id field.) -/
def registerModelDeployment (r : Registry) (_model_id container_name : String)
    (configured_max_gpu_utilization : ℚ) (gpu_type : String) (pid : ℕ) : Registry :=
  registryInsert r container_name
    { vram_samples := []
      peak_usage := 0
      configured_max_utilization := configured_max_gpu_utilization
      gpu_type := gpu_type
      pid := pid }

/-- Mirrors `cleanupStaleModelMetrics` (model_manager.cpp lines 274-291):
entries whose container name is not in the currently running set are
erased.  The running-name set is an explicit input (in the source it is
obtained from `listDeployedModels`). -/
def cleanupStaleModelMetrics (r : Registry) (running : List String) : Registry :=
  r.filter (fun p => p.1 ∈ running)

/-- Mirrors `updateModelVRAMUsage` (model_manager.cpp lines 293-308):
prune stale entries, then append the sample to the ring (capacity
`MAX_SAMPLES = 100`, FIFO eviction) and raise the running peak. -/
def updateModelVRAMUsage (r : Registry) (running : List String)
    (container_name : String) (vram_percent : ℚ) : Registry :=
  let r' := cleanupStaleModelMetrics r running
  match registryLookup r' container_name with
  | none => r'
  | some m =>
    let samples := m.vram_samples ++ [vram_percent]
    let samples := if samples.length > 100 then samples.tail else samples
    let peak := if vram_percent > m.peak_usage then vram_percent else m.peak_usage
    registryInsert r' container_name
      { m with vram_samples := samples, peak_usage := peak }

/-- `OptimizationResult` (model_manager.h). -/
structure OptimizationResult where
  optimized : Bool
  restarted_models : List String
  message : String
deriving Repr, DecidableEq

/-- Mirrors `optimizeModelAllocations` (model_manager.cpp lines 311-340):
after pruning, a container is marked for restart when it has at least 10
ring samples, its ring mean is below `configured_max_utilization * 100 * 0.7`,
and its recorded peak is positive. -/
def optimizeModelAllocations (r : Registry) (running : List String) : OptimizationResult :=
  let r' := cleanupStaleModelMetrics r running
  let to_restart := (r'.filter (fun p =>
    let m := p.2
    decide (10 ≤ m.vram_samples.length) &&
    decide (m.vram_samples.sum / (m.vram_samples.length : ℚ)
              < m.configured_max_utilization * 100 * (7/10)) &&
    decide (0 < m.peak_usage))).map Prod.fst
  if to_restart = [] then
    { optimized := false, restarted_models := [], message := "No models need optimization" }
  else
    { optimized := true, restarted_models := to_restart
      message := "Optimizing " ++ toString to_restart.length ++ " model(s)" }

/-! ## optimization_service.cpp : re-deploy budget -/

/-- `DeployedModel` (model_manager.h lines 8-19).  `listDeployedModels`
(model_manager.cpp lines 57-151) assigns only `model_id`, `container_id`,
`container_name`, `port` and `running`; the three `double` fields and
`gpu_type`/`pid` are left with their default-initialized (indeterminate)
values — the embedding therefore carries them as explicit fields that the
constructor below leaves to its caller. -/
structure DeployedModel where
  model_id : String
  container_id : String
  container_name : String
  port : ℤ
  running : Bool
  configured_max_gpu_utilization : ℚ
  avg_vram_usage_percent : ℚ
  peak_vram_usage_percent : ℚ
  gpu_type : String
  pid : ℕ
deriving Repr, DecidableEq

/-- A record as produced by `listDeployedModels` (model_manager.cpp lines
139-146): the five parsed fields are set; `junk` stands for the
never-assigned (indeterminate) `peak_vram_usage_percent` double, and the
other unassigned fields are likewise indeterminate (here fixed to
inert defaults since no claim reads them). -/
def listedDeployedModel (junk : ℚ) (model_id container_id container_name : String)
    (port : ℤ) : DeployedModel :=
  { model_id := model_id
    container_id := container_id
    container_name := container_name
    port := port
    running := true
    configured_max_gpu_utilization := 0
    avg_vram_usage_percent := 0
    peak_vram_usage_percent := junk
    gpu_type := ""
    pid := 0 }

/-- The clamp of `handleOptimizeRequest` (optimization_service.cpp lines
57-58): `if (peak_usage < 0.1) peak_usage = 0.1; if (peak_usage > 0.95) peak_usage = 0.95;`. -/
def clampBudget (x : ℚ) : ℚ :=
  let x := if x < 1/10 then 1/10 else x
  if x > 95/100 then 95/100 else x

/-- The per-container re-deploy budget computation of `handleOptimizeRequest`
(optimization_service.cpp lines 34-58): scan `listDeployedModels()` output
for the first record with the marked container name, read its `model_id`
and `peak_vram_usage_percent / 100.0`, skip the container when no model id
was found (line 49), and clamp the budget to `[0.1, 0.95]`.  Returns the
`gpu-memory-utilization` value written into the temp config (line 66),
or `none` when the container is skipped. -/
def optimizeRedeployBudget (models : List DeployedModel) (container_name : String) :
    Option ℚ :=
  match models.find? (fun m => m.container_name = container_name) with
  | none => none
  | some m =>
    if m.model_id = "" then none
    else some (clampBudget (m.peak_vram_usage_percent / 100))

/-! ## deploy_service.cpp : request boundary -/

/-- The whitespace set `" \t\n\r\f\v"` used by `handleDeployRequest`
(deploy_service.cpp lines 20-21) and `trimWhitespace` (hf_deploy.cpp). -/
def isTrimWS (c : Char) : Bool :=
  c = ' ' || c = '\t' || c = '\n' || c = '\r' || c = '\x0c' || c = '\x0b'

/-- `erase(0, find_first_not_of(ws))` followed by
`erase(find_last_not_of(ws) + 1)`: trim both ends (all-whitespace input
becomes empty, matching the `npos` behaviour of the source). -/
def trimWhitespace (s : String) : String :=
  String.mk (((s.data.dropWhile isTrimWS).reverse.dropWhile isTrimWS).reverse)

/-- Response envelope for the early rejection paths of `handleDeployRequest`. -/
structure DeployHttpReply where
  status : ℕ
  success : Bool
  message : String
deriving Repr, DecidableEq

/-- The early validation of `handleDeployRequest` (deploy_service.cpp lines
12-58), before `deployHFModel` is invoked: trim the model id; an empty
result is answered with `http::status::bad_request` (400) and the literal
body message of line 41; an absent token (request and environment) is
answered with 400 and the message of line 52.  `none` means the handler
proceeds to `deployHFModel` (whose reply is sent with status 200, line 67). -/
def handleDeployRequestEarly (model_id_raw hf_token env_hf_token : String) :
    Option DeployHttpReply :=
  let model_id := trimWhitespace model_id_raw
  if model_id = "" then
    some { status := 400, success := false
           message := "model_id is required or contains only whitespace" }
  else if hf_token = "" && env_hf_token = "" then
    some { status := 400, success := false
           message := "hf_token is required (provide in request or set HF_TOKEN in .env)" }
  else none

/-! ## hf_deploy.cpp : model validation against the registry -/

/-- `ModelInfo` (hf_deploy.h). -/
structure ModelInfo where
  id : String
  gated : Bool
  valid : Bool
  error : String
deriving Repr, DecidableEq

/-- The remote registry and transport, abstracted: `status` is the HTTP
code string captured from `curl -w "HTTP_CODE:%{http_code}"` (with `"000"`
or `""` denoting transport failure, as in the source), `body` the response
body, and `search` the result of `searchHFModel` (the first `"id"` of the
search reply, `none` when the search yields nothing). -/
structure HFRegistry where
  status : String → String
  body : String → String
  search : String → Option String

/-- One invocation of `validateHFModel` (hf_deploy.cpp lines 144-302) up to
its recursive call: either a final `ModelInfo` or the model id with which
the source recurses (`return validateHFModel(found_id, hf_token)` at lines
256 and 276).  The branch structure follows the source:
empty-after-trim rejection (151-154), transport failure (199-248),
404-with-search (251-260), other non-200 (262-265), body without
`"id":`/`"modelId":` with search (267-280), and the success path in which
the body's `"gated":true` and `"id":"…"` fields are read (283-301). -/
inductive ValidateOutcome
  | done (info : ModelInfo)
  | recurse (id : String)
deriving Repr, DecidableEq

/-- `std::string::find(marker)` followed by skipping past the marker:
the suffix just after the first occurrence of `marker`, or `none` when the
marker does not occur. -/
def dropThroughMarker (marker : List Char) : List Char → Option (List Char)
  | [] => none
  | c :: cs =>
    if marker.isPrefixOf (c :: cs) then some ((c :: cs).drop marker.length)
    else dropThroughMarker marker cs

/-- Substring containment, standing in for `std::string::find != npos`
(for the non-empty needles used by the source). -/
def strContains (hay needle : String) : Bool :=
  (dropThroughMarker needle.data hay.data).isSome

/-- Extraction of the first `"id":"…"` value from a JSON body
(hf_deploy.cpp lines 290-297 and 130-139): text between `"id":"` and the
next quote, `none` when the marker or closing quote is absent. -/
def extractIdField (body : String) : Option String :=
  match dropThroughMarker "\"id\":\"".data body.data with
  | none => none
  | some after =>
    if after.contains '"' then some (String.mk (after.takeWhile (· ≠ '"'))) else none

/-- One step of `validateHFModel` over the abstract registry.  (The token
is passed through to the recursive call but the abstract registry already
closes over it, so it is unused here.) -/
def validateStep (reg : HFRegistry) (model_id _hf_token : String) : ValidateOutcome :=
  let cleaned := trimWhitespace model_id
  if cleaned = "" then
    .done { id := "", gated := false, valid := false
            error := "Model ID is empty or contains only whitespace" }
  else
    let code := reg.status cleaned
    if code = "000" || code = "" then
      .done { id := cleaned, gated := false, valid := false
              error := "Failed to connect to HuggingFace API (network error)" }
    else if code = "404" then
      match reg.search model_id with
      | some found_id => .recurse found_id
      | none =>
        .done { id := cleaned, gated := false, valid := false
                error := "Model not found: " ++ model_id }
    else if code ≠ "200" then
      .done { id := cleaned, gated := false, valid := false
              error := "API request failed with HTTP " ++ code }
    else
      let body := reg.body cleaned
      if !(strContains body "\"id\":") && !(strContains body "\"modelId\":") then
        match reg.search model_id with
        | some found_id => .recurse found_id
        | none =>
          .done { id := cleaned, gated := false, valid := false
                  error := "Model not found: " ++ model_id }
      else
        let gated := strContains body "\"gated\":true" || strContains body "\"gated\": true"
        let final_id := (extractIdField body).getD cleaned
        .done { id := final_id, gated := gated, valid := true, error := "" }

/-- Iterated `validateHFModel`.  The C++ recursion carries no depth bound,
so the embedding supplies fuel: `validateFuel reg fuel m t = none` for
every `fuel` exactly when the source recursion never returns. -/
def validateFuel (reg : HFRegistry) (fuel : ℕ) (model_id hf_token : String) :
    Option ModelInfo :=
  match fuel with
  | 0 => none
  | n + 1 =>
    match validateStep reg model_id hf_token with
    | .done info => some info
    | .recurse id => validateFuel reg n id hf_token

/-! ## hf_deploy.cpp : end of `deployHFModel` -/

/-- `DeployResponse` (hf_deploy.h). -/
structure DeployResponse where
  success : Bool
  message : String
  container_id : String
  port : ℤ
deriving Repr, DecidableEq

/-- The tail of `deployHFModel` (hf_deploy.cpp lines 834-854), entered once
a container id has been identified (the empty-id path returned at line 645
without reaching it): `registerModelDeployment` is called unconditionally
(line 834), then the response is built — success when the container is
running (healthy or still loading), failure with the "failed to start"
message otherwise. -/
def deployFinalize (r : Registry) (validated_model_id container_name : String)
    (max_gpu_util : ℚ) (detected_gpu : String) (pid : ℕ)
    (container_id : String) (port : ℤ) (is_running is_healthy : Bool) :
    Registry × DeployResponse :=
  let r' := registerModelDeployment r validated_model_id container_name
              max_gpu_util detected_gpu pid
  let response : DeployResponse :=
    if is_running && is_healthy then
      { success := true
        message := "Model deployed successfully. Container: " ++ container_id
                     ++ " (running and healthy)"
        container_id := container_id, port := port }
    else if is_running then
      { success := true
        message := "Container started: " ++ container_id ++ " on port " ++ toString port
                     ++ ". API is still loading (this is normal for large models and may take 5-10+ minutes). Check status with: docker logs "
                     ++ container_id
        container_id := container_id, port := port }
    else
      { success := false
        message := "Container created: " ++ container_id
                     ++ " but failed to start. Check logs with: docker logs " ++ container_id
        container_id := container_id, port := port }
  (r', response)

/-! ## vllm_client.cpp : per-model metrics scraping -/

/-- The claim-relevant slice of `ModelBlockData` (vllm_client.h): the
fields set by `fetchPerModelBlockData` that C5 is about.  The remaining
scraped gauges (`kv_cache_usage_perc`, counters, request gauges) are
carried as inputs where a claim needs them (see `MBData` below). -/
structure ModelBlockRecord where
  model_id : String
  port : ℤ
  num_gpu_blocks : ℕ
  block_size : ℕ
  available : Bool
deriving Repr, DecidableEq

/-- `std::stoull` on a digit string, as a left fold. -/
def digitsToNat (ds : List Char) : ℕ :=
  ds.foldl (fun acc c => acc * 10 + (c.toNat - '0'.toNat)) 0

/-- The `vllm:cache_config_info` label parse of `fetchPerModelBlockData`
(vllm_client.cpp lines 267-285): find the metric name, then the label
marker `num_gpu_blocks="`, take the text up to the closing quote, keep
digits only, and convert — `none` when any find fails or no digit
remains (in which case the source leaves `model_blocks` unchanged). -/
def extractNumGpuBlocks (line : List Char) : Option ℕ :=
  match dropThroughMarker "vllm:cache_config_info".data line with
  | none => none
  | some _ =>
    match dropThroughMarker "num_gpu_blocks=\"".data line with
    | none => none
    | some after =>
      if after.contains '"' then
        let value := after.takeWhile (· ≠ '"')
        let digits := value.filter Char.isDigit
        if digits = [] then none else some (digitsToNat digits)
      else none

/-- The `model_blocks` accumulation over the scraped `/metrics` lines
(vllm_client.cpp lines 263-285): each line with a successful extraction
overwrites the value; others leave it unchanged (initial 0, line 254). -/
def scrapeModelBlocks (lines : List (List Char)) : ℕ :=
  lines.foldl (fun acc l => (extractNumGpuBlocks l).getD acc) 0

/-- The per-model record construction of `fetchPerModelBlockData`
(vllm_client.cpp lines 226-235 and 404-418): the record starts zeroed and
unavailable; when the extracted `model_blocks` is positive the block count
is stored, `block_size` is set to the fixed default `16 * 1024`, and
`available` becomes true. -/
def mkModelBlockRecord (model_id : String) (port : ℤ) (lines : List (List Char)) :
    ModelBlockRecord :=
  let model_blocks := scrapeModelBlocks lines
  if model_blocks > 0 then
    { model_id := model_id, port := port, num_gpu_blocks := model_blocks
      block_size := 16 * 1024, available := true }
  else
    { model_id := model_id, port := port, num_gpu_blocks := 0
      block_size := 0, available := false }

/-! ## nvml_utils.cpp : per-model VRAM attribution -/

/-- The slice of `ModelBlockData` consumed by `getDetailedVRAMUsage`
(the scrape result, an input to the attribution computation). -/
structure MBData where
  model_id : String
  port : ℤ
  num_gpu_blocks : ℕ
  block_size : ℕ
  kv_cache_usage_perc : ℚ
  available : Bool
deriving Repr, DecidableEq

/-- `ModelVRAMInfo` (vram_types.h): one entry of `detailed.models`. -/
structure ModelVRAMInfo where
  model_id : String
  port : ℤ
  allocated_vram_bytes : ℕ
  used_kv_cache_bytes : ℕ
deriving Repr, DecidableEq

/-- The per-model body of `getDetailedVRAMUsage` (nvml_utils.cpp lines
211-289).  `model_memory` is the cgroup-matched per-model byte map built
at lines 164-207 (an association list; absence means the map has no entry
for the model).  For an available model with positive block count: the
block size is recomputed from matched memory when present and positive,
defaulted to 16 KiB when zero; `used_kv = ⌊num_blocks · block_size · kv_perc⌋`
(the `static_cast<unsigned long long>` truncation of the double product);
and the cap `min used_kv allocated` is applied only when
`model_allocated_vram > 0` (line 257). -/
def computeModelInfo (model_memory : List (String × ℕ)) (d : MBData) : ModelVRAMInfo :=
  if d.available && decide (0 < d.num_gpu_blocks) then
    let matched := (model_memory.find? (fun p => p.1 = d.model_id)).map Prod.snd
    let model_allocated_vram : ℕ := matched.getD 0
    let calculated_block_size : ℕ :=
      match matched with
      | some v => if 0 < d.num_gpu_blocks ∧ 0 < v then v / d.num_gpu_blocks else d.block_size
      | none => d.block_size
    let calculated_block_size :=
      if calculated_block_size = 0 then 16 * 1024 else calculated_block_size
    let model_used_kv_bytes : ℕ :=
      (Int.floor ((d.num_gpu_blocks : ℚ) * (calculated_block_size : ℚ)
        * d.kv_cache_usage_perc)).toNat
    let model_used_kv_bytes :=
      if 0 < model_allocated_vram then min model_used_kv_bytes model_allocated_vram
      else model_used_kv_bytes
    { model_id := d.model_id, port := d.port
      allocated_vram_bytes := model_allocated_vram
      used_kv_cache_bytes := model_used_kv_bytes }
  else
    { model_id := d.model_id, port := d.port
      allocated_vram_bytes := 0, used_kv_cache_bytes := 0 }

/-- The unmatched-VRAM redistribution of `getDetailedVRAMUsage`
(nvml_utils.cpp lines 319-349), applied to the per-model list when the
device reports used memory and less than half of it was matched: the
remainder is added proportionally to KV usage when any model has KV
bytes, otherwise evenly (integer division).  No cap is re-applied. -/
def redistributeVRAM (device_used : ℕ) (models : List ModelVRAMInfo) :
    List ModelVRAMInfo :=
  let total_used_kv : ℕ := (models.map (·.used_kv_cache_bytes)).sum
  if 0 < device_used then
    let matched : ℕ := (models.map (·.allocated_vram_bytes)).sum
    if (matched : ℚ) < (device_used : ℚ) * (1/2) then
      let remaining := device_used - matched
      if 0 < total_used_kv then
        models.map (fun m =>
          if 0 < m.used_kv_cache_bytes then
            { m with allocated_vram_bytes := m.allocated_vram_bytes
                + (Int.floor ((remaining : ℚ)
                    * ((m.used_kv_cache_bytes : ℚ) / (total_used_kv : ℚ)))).toNat }
          else m)
      else if models ≠ [] then
        let per_model := remaining / models.length
        models.map (fun m =>
          { m with allocated_vram_bytes := m.allocated_vram_bytes + per_model })
      else models
    else models
  else models

/-- The `detailed.models` list of a telemetry snapshot (nvml_utils.cpp
lines 209-289 then 319-349): per-model attribution followed by the
redistribution pass. -/
def snapshotModels (model_memory : List (String × ℕ)) (device_used : ℕ)
    (models_data : List MBData) : List ModelVRAMInfo :=
  redistributeVRAM device_used (models_data.map (computeModelInfo model_memory))

/-! ## Spec-side percentile formula

The specification defines the percentile as
`S[lo]·(1−w) + S[hi]·w` with `i = p·(n−1)`, `lo = ⌊i⌋`, `hi = ⌈i⌉`,
`w = i − lo`.  These definitions follow the spec's words; the refinement
theorem for C8 compares `calculatePercentile` (from the source) against
them. -/

/-- The spec's interpolation at a raw index `i`. -/
def interpAt (S : List ℚ) (i : ℚ) : ℚ :=
  let lo := (Int.floor i).toNat
  let hi := (Int.ceil i).toNat
  let w := i - (lo : ℚ)
  S.getD lo 0 * (1 - w) + S.getD hi 0 * w

/-- The spec's percentile formula: interpolation at `i = p·(n−1)`. -/
def percentileSpec (S : List ℚ) (p : ℚ) : ℚ :=
  interpAt S (p * ((S.length : ℚ) - 1))

/-! # Helper lemmas -/

theorem sanitizeModelId_data (s : String) :
    (sanitizeModelId s).data = s.data.map (fun c => if isAlnumAscii c then c else '-') :=
  rfl

theorem sanitizeModelId_append (a b : String) :
    sanitizeModelId (a ++ b) = sanitizeModelId a ++ sanitizeModelId b := by
  apply String.ext
  simp [sanitizeModelId_data, String.data_append]

theorem sanitizeModelId_idem (s : String) :
    sanitizeModelId (sanitizeModelId s) = sanitizeModelId s := by
  apply String.ext
  simp only [sanitizeModelId_data, List.map_map]
  apply List.map_congr_left
  intro c _
  by_cases h : isAlnumAscii c = true
  · simp [Function.comp, h]
  · simp only [Function.comp, Bool.not_eq_true] at h ⊢
    simp [h]

theorem registryLookup_insert (r : Registry) (name : String) (m : ModelMetrics) :
    registryLookup (registryInsert r name m) name = some m := by
  induction r with
  | nil => simp [registryInsert, registryLookup]
  | cons p rest ih =>
    obtain ⟨k, v⟩ := p
    by_cases h : k = name
    · simp [registryInsert, registryLookup, h]
    · simp [registryInsert, registryLookup, h, ih]

/-! # Claim C7 — container-name derivation -/

/-- C7 counterexample: the container-name derivation is not idempotent;
applied to its own output it prepends a second `vllm-`. -/
theorem C7_counterexample :
    getContainerName (getContainerName "a") ≠ getContainerName "a" := by decide

/-- C7 (amended): the derivation's output contains only `[A-Za-z0-9-]` and
begins with `vllm-`, and the sanitization step is idempotent; but the full
derivation is not idempotent — re-applying it prepends another `vllm-`. -/
theorem C7_container_name_amended : ∀ m : String,
    (∃ rest, getContainerName m = "vllm-" ++ rest) ∧
    (∀ c ∈ (getContainerName m).data, isAlnumAscii c = true ∨ c = '-') ∧
    sanitizeModelId (sanitizeModelId m) = sanitizeModelId m ∧
    getContainerName (getContainerName m) = "vllm-" ++ getContainerName m := by
  intro m
  refine ⟨⟨sanitizeModelId m, rfl⟩, ?_, sanitizeModelId_idem m, ?_⟩
  · intro c hc
    have hdata : (getContainerName m).data
        = "vllm-".data ++ (sanitizeModelId m).data := by
      simp [getContainerName, String.data_append]
    rw [hdata] at hc
    rcases List.mem_append.mp hc with h | h
    · have : ∀ c ∈ "vllm-".data, isAlnumAscii c = true ∨ c = '-' := by decide
      exact this c h
    · rw [sanitizeModelId_data] at h
      rcases List.mem_map.mp h with ⟨x, _, rfl⟩
      by_cases hx : isAlnumAscii x = true
      · left; simp [hx]
      · right; simp only [Bool.not_eq_true] at hx; simp [hx]
  · show "vllm-" ++ sanitizeModelId ("vllm-" ++ sanitizeModelId m)
        = "vllm-" ++ ("vllm-" ++ sanitizeModelId m)
    rw [sanitizeModelId_append, sanitizeModelId_idem]
    have h5 : sanitizeModelId "vllm-" = "vllm-" := by decide
    rw [h5]

/-- C7 witness: the amended theorem instantiated on `"a/b"`. -/
theorem C7_container_name_witness :
    (isAlnumAscii 'a' = true ∨ 'a' = '-') ∧
    getContainerName (getContainerName "a/b") = "vllm-" ++ getContainerName "a/b" :=
  ⟨(C7_container_name_amended "a/b").2.1 'a' (by decide),
   (C7_container_name_amended "a/b").2.2.2⟩

/-! # Claim C3 — whitespace-only model id on POST /deploy -/

/-- C3 counterexample: a whitespace-only `model_id` is answered with HTTP
400 (`http::status::bad_request`, deploy_service.cpp line 40), not 200 as
the claim states; the body does carry `success:false` and the claimed
message. -/
theorem C3_counterexample :
    handleDeployRequestEarly "  " "tok" "" =
      some { status := 400, success := false
             message := "model_id is required or contains only whitespace" } ∧
    (400 : ℕ) ≠ 200 := by
  exact ⟨rfl, by decide⟩

/-- C3 (amended): a POST /deploy whose model_id trims to empty receives an
HTTP 400 response whose body has success:false and the message
"model_id is required or contains only whitespace". -/
theorem C3_whitespace_model_id_amended :
    ∀ raw tok env : String, trimWhitespace raw = "" →
      handleDeployRequestEarly raw tok env =
        some { status := 400, success := false
               message := "model_id is required or contains only whitespace" } := by
  intro raw tok env h
  simp [handleDeployRequestEarly, h]

/-- C3 witness: the amended theorem at the literal whitespace request. -/
theorem C3_whitespace_model_id_witness :
    handleDeployRequestEarly " \t " "tok" "" =
      some { status := 400, success := false
             message := "model_id is required or contains only whitespace" } :=
  C3_whitespace_model_id_amended " \t " "tok" "" (by decide)

/-! # Claim C4 — unbounded recursion in `validateHFModel` -/

/-- C4: `validateHFModel` carries no recursion bound.  Against a registry
that answers every model GET with 404 and whose search returns the very id
that was queried, each step recurses on the same id again, so the
validation never returns for any recursion depth — contradicting the
claim that a search hit is validated once more with no further
search-triggered recursion. -/
theorem C4_unbounded_recursion_bug :
    validateStep ⟨fun _ => "404", fun _ => "", fun _ => some "m"⟩ "m" "tok"
      = ValidateOutcome.recurse "m" ∧
    ∀ fuel : ℕ,
      validateFuel ⟨fun _ => "404", fun _ => "", fun _ => some "m"⟩ fuel "m" "tok"
        = none := by
  refine ⟨rfl, ?_⟩
  intro fuel
  induction fuel with
  | zero => rfl
  | succ n ih =>
    have hstep : validateStep ⟨fun _ => "404", fun _ => "", fun _ => some "m"⟩ "m" "tok"
        = ValidateOutcome.recurse "m" := rfl
    simp only [validateFuel, hstep]
    exact ih

/-! # Claim C10 — failed start still registers -/

/-- C10: once `deployHFModel` reaches its finalization (a container id was
identified), `registerModelDeployment` runs unconditionally; with the
container not running the response has success=false, yet the registry
now holds a fresh record for the container name — so the registry is not
left unchanged on this error path. -/
theorem C10_register_on_failed_start :
    ∀ (r : Registry) (vid cname : String) (util : ℚ) (gpu : String) (pid : ℕ)
      (cid : String) (port : ℤ) (healthy : Bool),
    (deployFinalize r vid cname util gpu pid cid port false healthy).2.success = false ∧
    registryLookup (deployFinalize r vid cname util gpu pid cid port false healthy).1 cname
      = some { vram_samples := [], peak_usage := 0, configured_max_utilization := util
               gpu_type := gpu, pid := pid } ∧
    (registryLookup r cname = none →
      (deployFinalize r vid cname util gpu pid cid port false healthy).1 ≠ r) := by
  intro r vid cname util gpu pid cid port healthy
  refine ⟨by simp [deployFinalize], ?_, ?_⟩
  · simp only [deployFinalize, registerModelDeployment]
    exact registryLookup_insert r cname _
  · intro hnone heq
    have h := registryLookup_insert r cname
      { vram_samples := [], peak_usage := 0, configured_max_utilization := util
        gpu_type := gpu, pid := pid }
    simp only [deployFinalize, registerModelDeployment] at heq
    rw [heq, hnone] at h
    exact Option.noConfusion h

/-- C10 witness: on an empty registry, a not-running finalization flips the
registry to a non-empty one while reporting failure. -/
theorem C10_register_on_failed_start_witness :
    (deployFinalize [] "org/m" "vllm-org-m" (95/100) "T4" 0 "abc123def456" 8000
        false false).2.success = false ∧
    (deployFinalize [] "org/m" "vllm-org-m" (95/100) "T4" 0 "abc123def456" 8000
        false false).1 ≠ [] :=
  ⟨(C10_register_on_failed_start [] "org/m" "vllm-org-m" (95/100) "T4" 0
      "abc123def456" 8000 false).1,
   (C10_register_on_failed_start [] "org/m" "vllm-org-m" (95/100) "T4" 0
      "abc123def456" 8000 false).2.2 rfl⟩

/-! # Claim C5 — metrics scraping of `vllm:cache_config_info` -/

/-- C5 counterexample: a `/metrics` exposition whose `cache_config_info`
labels carry `num_gpu_blocks="100"` and `block_size="32768"` produces a
record whose `block_size` is the hard-coded default 16384, not the label
value 32768 — the scraper does not extract `block_size` from the labels. -/
theorem C5_counterexample :
    (mkModelBlockRecord "org/m" 8000
        ["vllm:cache_config_info\x7bnum_gpu_blocks=\"100\",block_size=\"32768\"\x7d 1".data]
      ).num_gpu_blocks = 100 ∧
    (mkModelBlockRecord "org/m" 8000
        ["vllm:cache_config_info\x7bnum_gpu_blocks=\"100\",block_size=\"32768\"\x7d 1".data]
      ).block_size = 16384 ∧
    (mkModelBlockRecord "org/m" 8000
        ["vllm:cache_config_info\x7bnum_gpu_blocks=\"100\",block_size=\"32768\"\x7d 1".data]
      ).available = true ∧
    (16384 : ℕ) ≠ 32768 := by
  refine ⟨rfl, rfl, rfl, by decide⟩

/-- C5 (amended): the scraper extracts `num_gpu_blocks` from the labels of
the `vllm:cache_config_info` line (digits only, last extraction winning);
`block_size` is set to the fixed default `16 * 1024` bytes rather than
read from the labels; and the returned record has `available = true` iff
the extracted `num_gpu_blocks` is positive. -/
theorem C5_block_scrape_amended :
    ∀ (model_id : String) (port : ℤ) (lines : List (List Char)),
    ((mkModelBlockRecord model_id port lines).available = true
        ↔ 0 < (mkModelBlockRecord model_id port lines).num_gpu_blocks) ∧
    ((mkModelBlockRecord model_id port lines).available = true
        ↔ 0 < scrapeModelBlocks lines) ∧
    (mkModelBlockRecord model_id port lines).num_gpu_blocks = scrapeModelBlocks lines ∧
    ((mkModelBlockRecord model_id port lines).available = true →
      (mkModelBlockRecord model_id port lines).block_size = 16 * 1024) := by
  intro model_id port lines
  by_cases h : scrapeModelBlocks lines > 0
  · simp [mkModelBlockRecord, h]
  · simp only [gt_iff_lt, not_lt, Nat.le_zero] at h
    simp [mkModelBlockRecord, h]

/-- C5 witness: the amended theorem on a concrete scrape with
`num_gpu_blocks="12a3"` (digits-only extraction yields 123). -/
theorem C5_block_scrape_witness :
    (mkModelBlockRecord "org/m" 8001
        ["vllm:cache_config_info\x7bnum_gpu_blocks=\"12a3\"\x7d 1".data]).available = true ∧
    (mkModelBlockRecord "org/m" 8001
        ["vllm:cache_config_info\x7bnum_gpu_blocks=\"12a3\"\x7d 1".data]).num_gpu_blocks
      = 123 ∧
    (mkModelBlockRecord "org/m" 8001
        ["vllm:cache_config_info\x7bnum_gpu_blocks=\"12a3\"\x7d 1".data]).block_size
      = 16 * 1024 := by
  refine ⟨?_, rfl, ?_⟩
  · exact (C5_block_scrape_amended "org/m" 8001
      ["vllm:cache_config_info\x7bnum_gpu_blocks=\"12a3\"\x7d 1".data]).2.1.mpr (by decide)
  · exact (C5_block_scrape_amended "org/m" 8001
      ["vllm:cache_config_info\x7bnum_gpu_blocks=\"12a3\"\x7d 1".data]).2.2.2 rfl

/-! # Claim C1 — reconciliation re-deploy budget -/

theorem registerModelDeployment_nil (util : ℚ) (gpu : String) (pid : ℕ) :
    registerModelDeployment [] "A" "vllm-A" util gpu pid
      = [("vllm-A", { vram_samples := [], peak_usage := 0
                      configured_max_utilization := util, gpu_type := gpu, pid := pid })] :=
  rfl

theorem updateReplicate_step (v util : ℚ) (gpu : String) (pid : ℕ) (j : ℕ)
    (hj : j + 1 ≤ 100) :
    updateModelVRAMUsage
        [("vllm-A", { vram_samples := List.replicate j v, peak_usage := v
                      configured_max_utilization := util, gpu_type := gpu, pid := pid })]
        ["vllm-A"] "vllm-A" v
      = [("vllm-A", { vram_samples := List.replicate (j + 1) v, peak_usage := v
                      configured_max_utilization := util, gpu_type := gpu, pid := pid })] := by
  have hlen : ¬ ((List.replicate j v ++ [v]).length > 100) := by
    simp only [List.length_append, List.length_replicate, List.length_cons,
      List.length_nil]
    omega
  unfold updateModelVRAMUsage
  have h1 : cleanupStaleModelMetrics
      [("vllm-A", { vram_samples := List.replicate j v, peak_usage := v
                    configured_max_utilization := util, gpu_type := gpu, pid := pid })]
      ["vllm-A"]
      = [("vllm-A", { vram_samples := List.replicate j v, peak_usage := v
                      configured_max_utilization := util, gpu_type := gpu, pid := pid })] := by
    simp [cleanupStaleModelMetrics]
  rw [h1]
  have h2 : registryLookup
      [("vllm-A", { vram_samples := List.replicate j v, peak_usage := v
                    configured_max_utilization := util, gpu_type := gpu, pid := pid })]
      "vllm-A"
      = some { vram_samples := List.replicate j v, peak_usage := v
               configured_max_utilization := util, gpu_type := gpu, pid := pid } := by
    simp [registryLookup]
  simp only [h2]
  simp [hlen, registryInsert, lt_self_iff_false, ← List.replicate_succ' j v]
  omega

theorem updateReplicate_fold (v util : ℚ) (gpu : String) (pid : ℕ) :
    ∀ (k j : ℕ), j + k ≤ 100 →
    (List.replicate k v).foldl
        (fun r x => updateModelVRAMUsage r ["vllm-A"] "vllm-A" x)
        [("vllm-A", { vram_samples := List.replicate j v, peak_usage := v
                      configured_max_utilization := util, gpu_type := gpu, pid := pid })]
      = [("vllm-A", { vram_samples := List.replicate (j + k) v, peak_usage := v
                      configured_max_utilization := util, gpu_type := gpu, pid := pid })] := by
  intro k
  induction k with
  | zero => intro j _; simp
  | succ n ih =>
    intro j hj
    rw [List.replicate_succ, List.foldl_cons,
      updateReplicate_step v util gpu pid j (by omega)]
    have h := ih (j + 1) (by omega)
    rw [h, show j + 1 + n = j + (n + 1) from by omega]

theorem updateRegister_first (v util : ℚ) (gpu : String) (pid : ℕ) (hv : 0 < v) :
    updateModelVRAMUsage (registerModelDeployment [] "A" "vllm-A" util gpu pid)
        ["vllm-A"] "vllm-A" v
      = [("vllm-A", { vram_samples := List.replicate 1 v, peak_usage := v
                      configured_max_utilization := util, gpu_type := gpu, pid := pid })] := by
  rw [registerModelDeployment_nil]
  simp only [updateModelVRAMUsage, cleanupStaleModelMetrics, List.filter,
    List.mem_singleton, decide_True, registryLookup, if_pos rfl, registryInsert]
  simp [hv]

/-- The registry state after registering `vllm-A` with budget 0.95 and
recording 40 samples of 30.0: a 40-sample ring with recorded peak 30. -/
theorem r40_eval :
    (List.replicate 40 (30 : ℚ)).foldl
        (fun r v => updateModelVRAMUsage r ["vllm-A"] "vllm-A" v)
        (registerModelDeployment [] "A" "vllm-A" (95/100) "T4" 7)
      = [("vllm-A", { vram_samples := List.replicate 40 (30 : ℚ), peak_usage := 30
                      configured_max_utilization := 95/100, gpu_type := "T4", pid := 7 })] := by
  conv_lhs =>
    rw [show (40 : ℕ) = 39 + 1 from rfl, List.replicate_succ, List.foldl_cons,
      updateRegister_first 30 (95/100) "T4" 7 (by norm_num),
      updateReplicate_fold 30 (95/100) "T4" 7 39 1 (by omega)]

/-- A running container whose registry entry has at least 10 samples, ring
mean below 70% of the configured budget (×100) and positive recorded peak
is marked for restart by the reconciliation. -/
theorem optimize_marks_singleton (name : String) (m : ModelMetrics)
    (running : List String) (hrun : name ∈ running)
    (h10 : 10 ≤ m.vram_samples.length)
    (hmean : m.vram_samples.sum / (m.vram_samples.length : ℚ)
      < m.configured_max_utilization * 100 * (7/10))
    (hpeak : 0 < m.peak_usage) :
    (optimizeModelAllocations [(name, m)] running).restarted_models = [name] := by
  simp only [optimizeModelAllocations, cleanupStaleModelMetrics]
  rw [List.filter_cons_of_pos ?h1, List.filter_nil]
  rw [List.filter_cons_of_pos ?h2, List.filter_nil]
  · simp
  case h1 => simpa using hrun
  case h2 =>
    simp only [Bool.and_eq_true, decide_eq_true_eq]
    exact ⟨⟨h10, hmean⟩, hpeak⟩

/-- C1: the reconciliation marks `vllm-A` (40 ring samples of 30.0 against
a configured budget of 0.95, threshold 66.5, recorded peak 30.0), but the
re-deploy budget is computed from `DeployedModel.peak_vram_usage_percent`
— a field `listDeployedModels` never assigns (here the indeterminate
value `junk`) — instead of the registry's recorded peak: for any `junk`
the emitted `gpu-memory-utilization` is `clamp(junk/100)`, which at the
zero-initialized value 0 gives 0.1, not the claimed
`clamp(recorded peak / 100) = 0.3`. -/
theorem C1_redeploy_budget_bug :
    (optimizeModelAllocations
        ((List.replicate 40 (30 : ℚ)).foldl
          (fun r v => updateModelVRAMUsage r ["vllm-A"] "vllm-A" v)
          (registerModelDeployment [] "A" "vllm-A" (95/100) "T4" 7))
        ["vllm-A"]).restarted_models = ["vllm-A"] ∧
    (registryLookup
        ((List.replicate 40 (30 : ℚ)).foldl
          (fun r v => updateModelVRAMUsage r ["vllm-A"] "vllm-A" v)
          (registerModelDeployment [] "A" "vllm-A" (95/100) "T4" 7))
        "vllm-A").map ModelMetrics.peak_usage = some 30 ∧
    (∀ junk : ℚ,
      optimizeRedeployBudget [listedDeployedModel junk "A" "abc123def456" "vllm-A" 8000]
        "vllm-A" = some (clampBudget (junk / 100))) ∧
    clampBudget ((0 : ℚ) / 100) = 1/10 ∧
    clampBudget ((30 : ℚ) / 100) = 3/10 ∧
    (1/10 : ℚ) ≠ 3/10 := by
  have hsum : (List.replicate 40 (30 : ℚ)).sum = 1200 := by
    rw [List.sum_replicate, nsmul_eq_mul]
    norm_num
  have hmean : (List.replicate 40 (30 : ℚ)).sum / ((List.replicate 40 (30 : ℚ)).length : ℚ)
      < (95/100 : ℚ) * 100 * (7/10) := by
    rw [hsum, List.length_replicate]
    norm_num
  have hlen : 10 ≤ (List.replicate 40 (30 : ℚ)).length := by simp
  have hpeak : (0 : ℚ) < 30 := by norm_num
  refine ⟨?_, ?_, ?_, ?_, ?_, ?_⟩
  · rw [r40_eval]
    exact optimize_marks_singleton "vllm-A" _ ["vllm-A"] (by simp) hlen hmean hpeak
  · rw [r40_eval]
    simp [registryLookup]
  · intro junk
    rfl
  · simp only [clampBudget]
    norm_num
  · simp only [clampBudget]
    norm_num
  · norm_num

/-! # Claim C2 — used KV cache vs allocated VRAM -/

/-- C2: with no cgroup-matched process memory, a model's
`used_kv_cache_bytes` (100 blocks × 16384-byte default × usage 1.0) is
never capped — the cap applies only when `model_allocated_vram > 0` — and
the redistribution pass only raises `allocated_vram_bytes` to the device's
1000 used bytes, leaving a snapshot entry with
`used_kv_cache_bytes = 1638400 > 1000 = allocated_vram_bytes`. -/
theorem C2_kv_cap_bug :
    snapshotModels [] 1000
      [{ model_id := "org/m", port := 8000, num_gpu_blocks := 100, block_size := 16384,
         kv_cache_usage_perc := 1, available := true }] =
      [{ model_id := "org/m", port := 8000, allocated_vram_bytes := 1000
         used_kv_cache_bytes := 1638400 }] ∧
    (1000 : ℕ) < 1638400 := by
  constructor
  · have hkv : ((100 : ℕ) : ℚ) * ((16384 : ℕ) : ℚ) * 1 = ((1638400 : ℕ) : ℚ) := by
      norm_num
    have hfloor : (Int.floor (((100 : ℕ) : ℚ) * ((16384 : ℕ) : ℚ) * 1)).toNat = 1638400 := by
      rw [hkv, Int.floor_natCast]
      decide
    have hinfo : computeModelInfo []
        { model_id := "org/m", port := 8000, num_gpu_blocks := 100, block_size := 16384
          kv_cache_usage_perc := 1, available := true }
        = { model_id := "org/m", port := 8000, allocated_vram_bytes := 0
            used_kv_cache_bytes := 1638400 } := by
      simp only [computeModelInfo, List.find?_nil, Option.map_none']
      norm_num [hfloor]
      all_goals decide
    have hprop : ((1000 : ℕ) : ℚ) * (((1638400 : ℕ) : ℚ) / ((1638400 : ℕ) : ℚ))
        = ((1000 : ℕ) : ℚ) := by norm_num
    have hfloor2 : (Int.floor (((1000 : ℕ) : ℚ) * (((1638400 : ℕ) : ℚ) / ((1638400 : ℕ) : ℚ)))).toNat
        = 1000 := by
      rw [hprop, Int.floor_natCast]
      decide
    simp only [snapshotModels, List.map_cons, List.map_nil, hinfo, redistributeVRAM,
      List.sum_cons, List.sum_nil]
    norm_num [hfloor2]
    all_goals decide
  · norm_num

/-! # Claim C6 — port selection -/

theorem scanLoop_all_mem (used : List ℤ) (fb : ℤ) :
    ∀ (fuel : ℕ) (port : ℤ),
      (∀ q : ℤ, port ≤ q → q < port + (fuel : ℤ) → q ∈ used) →
      scanLoop used port fuel fb = fb := by
  intro fuel
  induction fuel with
  | zero => intro port _; rfl
  | succ n ih =>
    intro port h
    have h0 : port ∈ used := h port le_rfl (by push_cast; omega)
    simp only [scanLoop, if_pos h0]
    exact ih (port + 1) (fun q hq1 hq2 => h q (by omega) (by push_cast at hq2 ⊢; omega))

theorem scanLoop_finds (used : List ℤ) (fb : ℤ) :
    ∀ (fuel : ℕ) (port : ℤ),
      (∃ q : ℤ, port ≤ q ∧ q < port + (fuel : ℤ) ∧ q ∉ used) →
      scanLoop used port fuel fb ∉ used ∧
      port ≤ scanLoop used port fuel fb ∧
      ∀ q : ℤ, port ≤ q → q < scanLoop used port fuel fb → q ∈ used := by
  intro fuel
  induction fuel with
  | zero =>
    intro port hex
    obtain ⟨q, hq1, hq2, _⟩ := hex
    exfalso
    push_cast at hq2
    omega
  | succ n ih =>
    intro port hex
    obtain ⟨q, hq1, hq2, hq3⟩ := hex
    by_cases hp : port ∈ used
    · simp only [scanLoop, if_pos hp]
      have hqp : q ≠ port := fun h => hq3 (h ▸ hp)
      have hex' : ∃ q : ℤ, port + 1 ≤ q ∧ q < (port + 1) + (n : ℤ) ∧ q ∉ used :=
        ⟨q, by omega, by push_cast at hq2 ⊢; omega, hq3⟩
      obtain ⟨h1, h2, h3⟩ := ih (port + 1) hex'
      refine ⟨h1, by omega, ?_⟩
      intro r hr1 hr2
      rcases eq_or_lt_of_le hr1 with rfl | hlt
      · exact hp
      · exact h3 r (by omega) hr2
    · simp only [scanLoop, if_neg hp]
      exact ⟨hp, le_rfl, fun r hr1 hr2 => absurd (lt_of_le_of_lt hr1 hr2) (lt_irrefl port)⟩

/-- C6 counterexample: with ports 8000..8999 all used and no requested
port, the scan window is exhausted and the fallback returns 8000 — a port
that IS in the used set — although the smallest free port ≥ 8000 (namely
9000) exists; so the selection does not always return a free port. -/
theorem C6_counterexample :
    getNextAvailablePort ((List.range 1000).map (fun k : ℕ => (8000 : ℤ) + (k : ℤ))) 8000 0 = 8000 ∧
    (8000 : ℤ) ∈ (List.range 1000).map (fun k : ℕ => (8000 : ℤ) + (k : ℤ)) ∧
    (9000 : ℤ) ∉ (List.range 1000).map (fun k : ℕ => (8000 : ℤ) + (k : ℤ)) := by
  refine ⟨?_, ?_, ?_⟩
  · have hcond : (decide ((0 : ℤ) > 0) && !(decide ((0 : ℤ) ∈
        (List.range 1000).map (fun k : ℕ => (8000 : ℤ) + (k : ℤ))))) = false := by
      simp
    simp only [getNextAvailablePort, hcond, Bool.false_eq_true, if_false]
    apply scanLoop_all_mem
    intro q hq1 hq2
    refine List.mem_map.mpr ⟨(q - 8000).toNat, List.mem_range.mpr (by omega), by omega⟩
  · exact List.mem_map.mpr ⟨0, List.mem_range.mpr (by norm_num), by norm_num⟩
  · intro h
    obtain ⟨k, hk, he⟩ := List.mem_map.mp h
    rw [List.mem_range] at hk
    omega

/-- C6 (amended): a positive, free requested port is returned as-is;
otherwise, the selection scans the window `[START_PORT, START_PORT+1000)`
and returns the smallest port ≥ START_PORT not in the used set whenever
that window contains a free port; when every port of the window is used it
falls back to START_PORT itself (even though it is in use). -/
theorem C6_port_selection_amended :
    ∀ (used : List ℤ) (start_port preferred : ℤ),
    (0 < preferred → preferred ∉ used →
      getNextAvailablePort used start_port preferred = preferred) ∧
    ((∃ q : ℤ, start_port ≤ q ∧ q < start_port + 1000 ∧ q ∉ used) →
      (preferred ≤ 0 ∨ preferred ∈ used) →
      (getNextAvailablePort used start_port preferred ∉ used ∧
       start_port ≤ getNextAvailablePort used start_port preferred ∧
       ∀ q : ℤ, start_port ≤ q → q < getNextAvailablePort used start_port preferred →
         q ∈ used)) ∧
    ((∀ q : ℤ, start_port ≤ q → q < start_port + 1000 → q ∈ used) →
      (preferred ≤ 0 ∨ preferred ∈ used) →
      getNextAvailablePort used start_port preferred = start_port) := by
  intro used start preferred
  have hcond : ∀ h : preferred ≤ 0 ∨ preferred ∈ used,
      (decide (preferred > 0) && !(decide (preferred ∈ used))) = false := by
    intro h
    rcases h with h | h
    · have : ¬ (preferred > 0) := by omega
      simp [this]
    · simp [h]
  refine ⟨?_, ?_, ?_⟩
  · intro h1 h2
    simp [getNextAvailablePort, h1, h2]
  · intro hex hwhy
    simp only [getNextAvailablePort, hcond hwhy, Bool.false_eq_true, if_false]
    apply scanLoop_finds
    obtain ⟨q, hq1, hq2, hq3⟩ := hex
    exact ⟨q, hq1, by push_cast; omega, hq3⟩
  · intro hall hwhy
    simp only [getNextAvailablePort, hcond hwhy, Bool.false_eq_true, if_false]
    apply scanLoop_all_mem
    intro q hq1 hq2
    exact hall q hq1 (by push_cast at hq2; omega)

/-- C6 witness: with only port 8000 in use and no requested port, the scan
returns a free port ≥ 8000 and every smaller port ≥ 8000 is in use. -/
theorem C6_port_selection_witness :
    getNextAvailablePort [(8000 : ℤ)] 8000 0 ∉ [(8000 : ℤ)] ∧
    (8000 : ℤ) ≤ getNextAvailablePort [(8000 : ℤ)] 8000 0 ∧
    ∀ q : ℤ, 8000 ≤ q → q < getNextAvailablePort [(8000 : ℤ)] 8000 0 →
      q ∈ [(8000 : ℤ)] :=
  (C6_port_selection_amended [(8000 : ℤ)] 8000 0).2.1
    ⟨8001, by norm_num, by norm_num, by norm_num⟩ (Or.inl (by norm_num))

/-! # Percentile helper lemmas (for C8 and C9) -/

theorem getD_eq_getElem_of_lt (l : List ℚ) (i : ℕ) (d : ℚ) (h : i < l.length) :
    l.getD i d = l[i] := by
  rw [List.getD_eq_getElem?_getD, List.getElem?_eq_getElem h]
  rfl

theorem getD_default_irrel (l : List ℚ) (i : ℕ) (d d' : ℚ) (h : i < l.length) :
    l.getD i d = l.getD i d' := by
  rw [getD_eq_getElem_of_lt l i d h, getD_eq_getElem_of_lt l i d' h]

theorem sorted_getD_mono (l : List ℚ) (hs : l.Sorted (· ≤ ·)) (a b : ℕ)
    (hab : a ≤ b) (hb : b < l.length) : l.getD a 0 ≤ l.getD b 0 := by
  rw [getD_eq_getElem_of_lt l a 0 (lt_of_le_of_lt hab hb),
    getD_eq_getElem_of_lt l b 0 hb]
  rcases eq_or_lt_of_le hab with rfl | hlt
  · exact le_refl _
  · exact List.pairwise_iff_get.mp hs ⟨a, lt_of_le_of_lt hab hb⟩ ⟨b, hb⟩ hlt

theorem getLastD_eq_getD : ∀ (l : List ℚ) (d : ℚ), l ≠ [] →
    l.getLastD d = l.getD (l.length - 1) d := by
  intro l
  induction l with
  | nil => intro d h; exact absurd rfl h
  | cons x t ih =>
    intro d _
    cases t with
    | nil => rfl
    | cons y t' =>
      rw [List.getLastD_cons, ih x (by simp)]
      have hlen : (x :: y :: t').length - 1 = ((y :: t').length - 1) + 1 := by
        simp
      rw [hlen, List.getD_cons_succ]
      exact getD_default_irrel _ _ x d (by simp)

theorem sorted_getD_zero_le (l : List ℚ) (hs : l.Sorted (· ≤ ·)) (x : ℚ)
    (hx : x ∈ l) : l.getD 0 0 ≤ x := by
  obtain ⟨⟨n, hn⟩, rfl⟩ := List.mem_iff_get.mp hx
  have hg : l.get ⟨n, hn⟩ = l.getD n 0 := (getD_eq_getElem_of_lt l n 0 hn).symm
  rw [hg]
  exact sorted_getD_mono l hs 0 n (Nat.zero_le n) hn

theorem sorted_le_getLastD (l : List ℚ) (hs : l.Sorted (· ≤ ·)) (x : ℚ)
    (hx : x ∈ l) : x ≤ l.getLastD 0 := by
  have hne : l ≠ [] := by rintro rfl; simp at hx
  rw [getLastD_eq_getD l 0 hne]
  obtain ⟨⟨n, hn⟩, rfl⟩ := List.mem_iff_get.mp hx
  have hg : l.get ⟨n, hn⟩ = l.getD n 0 := (getD_eq_getElem_of_lt l n 0 hn).symm
  rw [hg]
  exact sorted_getD_mono l hs n (l.length - 1) (by omega) (by omega)

theorem interpAt_eq (S : List ℚ) (i : ℚ) :
    interpAt S i = S.getD (⌊i⌋).toNat 0 * (1 - (i - (((⌊i⌋).toNat : ℕ) : ℚ)))
      + S.getD (⌈i⌉).toNat 0 * (i - (((⌊i⌋).toNat : ℕ) : ℚ)) := rfl

theorem interpAt_w_bounds (i : ℚ) (hi0 : 0 ≤ i) :
    0 ≤ i - (((⌊i⌋).toNat : ℕ) : ℚ) ∧ i - (((⌊i⌋).toNat : ℕ) : ℚ) ≤ 1 := by
  have hfl0 : (0 : ℤ) ≤ ⌊i⌋ := Int.floor_nonneg.mpr hi0
  have hcast : (((⌊i⌋).toNat : ℕ) : ℚ) = ((⌊i⌋ : ℤ) : ℚ) := by
    exact_mod_cast congrArg Int.cast (Int.toNat_of_nonneg hfl0)
  rw [hcast]
  have h1 := Int.floor_le i
  have h2 := Int.lt_floor_add_one i
  constructor <;> linarith

theorem interpAt_int (S : List ℚ) (i : ℚ) (hi0 : 0 ≤ i)
    (hint : i = ((⌊i⌋ : ℤ) : ℚ)) : interpAt S i = S.getD (⌊i⌋).toNat 0 := by
  have hfl0 : (0 : ℤ) ≤ ⌊i⌋ := Int.floor_nonneg.mpr hi0
  have hcast : (((⌊i⌋).toNat : ℕ) : ℚ) = ((⌊i⌋ : ℤ) : ℚ) := by
    exact_mod_cast congrArg Int.cast (Int.toNat_of_nonneg hfl0)
  have hceil : ⌈i⌉ = ⌊i⌋ := by
    rw [hint, Int.ceil_intCast, Int.floor_intCast]
  rw [interpAt_eq, hceil]
  have hw : i - (((⌊i⌋).toNat : ℕ) : ℚ) = 0 := by
    rw [hcast, ← hint]
    ring
  rw [hw]
  ring

theorem interp_index_lt (S : List ℚ) (i : ℚ) (hS : S ≠ [])
    (hin : i ≤ (S.length : ℚ) - 1) (hi0 : 0 ≤ i) :
    (⌊i⌋).toNat < S.length ∧ (⌈i⌉).toNat < S.length ∧ (⌊i⌋).toNat ≤ (⌈i⌉).toNat := by
  have hn1 : 1 ≤ S.length := List.length_pos.mpr hS
  have hfl0 : (0 : ℤ) ≤ ⌊i⌋ := Int.floor_nonneg.mpr hi0
  have hcl : ⌈i⌉ ≤ (S.length : ℤ) - 1 := by
    rw [Int.ceil_le]
    push_cast
    linarith
  have hfl : ⌊i⌋ ≤ (S.length : ℤ) - 1 := le_trans (Int.floor_le_ceil i) hcl
  have hfc := Int.floor_le_ceil i
  refine ⟨by omega, by omega, by omega⟩

theorem interpAt_bounds (S : List ℚ) (hs : S.Sorted (· ≤ ·)) (i : ℚ) (hS : S ≠ [])
    (hi0 : 0 ≤ i) (hin : i ≤ (S.length : ℚ) - 1) :
    S.getD (⌊i⌋).toNat 0 ≤ interpAt S i ∧ interpAt S i ≤ S.getD (⌈i⌉).toNat 0 := by
  obtain ⟨hlo, hhi, hlohi⟩ := interp_index_lt S i hS hin hi0
  obtain ⟨hw0, hw1⟩ := interpAt_w_bounds i hi0
  have hab : S.getD (⌊i⌋).toNat 0 ≤ S.getD (⌈i⌉).toNat 0 :=
    sorted_getD_mono S hs _ _ hlohi hhi
  rw [interpAt_eq]
  constructor <;> nlinarith [hab, hw0, hw1]

theorem interpAt_mono (S : List ℚ) (hs : S.Sorted (· ≤ ·)) (hS : S ≠ [])
    (i j : ℚ) (hi0 : 0 ≤ i) (hij : i ≤ j) (hjn : j ≤ (S.length : ℚ) - 1) :
    interpAt S i ≤ interpAt S j := by
  have hj0 : 0 ≤ j := le_trans hi0 hij
  have hin : i ≤ (S.length : ℚ) - 1 := le_trans hij hjn
  rcases eq_or_lt_of_le hij with rfl | hlt
  · exact le_refl _
  · have hfl0i : (0 : ℤ) ≤ ⌊i⌋ := Int.floor_nonneg.mpr hi0
    have hfl0j : (0 : ℤ) ≤ ⌊j⌋ := Int.floor_nonneg.mpr hj0
    by_cases hff : ⌊i⌋ = ⌊j⌋
    · by_cases hieq : i = ((⌊i⌋ : ℤ) : ℚ)
      · rw [interpAt_int S i hi0 hieq, hff]
        exact (interpAt_bounds S hs j hS hj0 hjn).1
      · have hci : ⌈i⌉ = ⌊i⌋ + 1 := by
          have h1 := Int.ceil_le_floor_add_one i
          have h2 : ⌊i⌋ < ⌈i⌉ := by
            by_contra hcon
            push_neg at hcon
            have h3 := Int.le_ceil i
            have h4 := Int.floor_le i
            have h5 : ((⌈i⌉ : ℤ) : ℚ) ≤ ((⌊i⌋ : ℤ) : ℚ) := by exact_mod_cast hcon
            exact hieq (le_antisymm (le_trans h3 h5) h4)
          omega
        have hjne : j ≠ ((⌊j⌋ : ℤ) : ℚ) := by
          intro hjeq
          rw [← hff] at hjeq
          have h4 := Int.floor_le i
          rw [← hjeq] at h4
          exact absurd (le_antisymm (le_of_lt hlt) h4) (ne_of_lt hlt)
        have hcj : ⌈j⌉ = ⌊j⌋ + 1 := by
          have h1 := Int.ceil_le_floor_add_one j
          have h2 : ⌊j⌋ < ⌈j⌉ := by
            by_contra hcon
            push_neg at hcon
            have h3 := Int.le_ceil j
            have h4 := Int.floor_le j
            have h5 : ((⌈j⌉ : ℤ) : ℚ) ≤ ((⌊j⌋ : ℤ) : ℚ) := by exact_mod_cast hcon
            exact hjne (le_antisymm (le_trans h3 h5) h4)
          omega
        obtain ⟨hloi, hhii, _⟩ := interp_index_lt S i hS hin hi0
        obtain ⟨hloj, hhij, _⟩ := interp_index_lt S j hS hjn hj0
        have hidx : (⌊i⌋ + 1).toNat < S.length := by omega
        have hab : S.getD (⌊i⌋).toNat 0 ≤ S.getD ((⌊i⌋ + 1).toNat) 0 :=
          sorted_getD_mono S hs _ _ (by omega) hidx
        obtain ⟨hwi0, _⟩ := interpAt_w_bounds i hi0
        rw [interpAt_eq, interpAt_eq, ← hff, hci, hcj, ← hff]
        have hwij : i - (((⌊i⌋).toNat : ℕ) : ℚ) ≤ j - (((⌊i⌋).toNat : ℕ) : ℚ) := by
          linarith
        nlinarith [hab, hwi0, hwij]
    · have hflij : ⌊i⌋ < ⌊j⌋ :=
        lt_of_le_of_ne (Int.floor_mono (le_of_lt hlt)) hff
      obtain ⟨hloi, hhii, _⟩ := interp_index_lt S i hS hin hi0
      obtain ⟨hloj, hhij, _⟩ := interp_index_lt S j hS hjn hj0
      have h1 := (interpAt_bounds S hs i hS hi0 hin).2
      have h2 := (interpAt_bounds S hs j hS hj0 hjn).1
      have h3 : S.getD (⌈i⌉).toNat 0 ≤ S.getD (⌊j⌋).toNat 0 := by
        apply sorted_getD_mono S hs _ _ _ hloj
        have := Int.ceil_le_floor_add_one i
        omega
      linarith

theorem calculatePercentile_eq_spec (S : List ℚ) (p : ℚ) (hS : S ≠ [])
    (hp0 : 0 ≤ p) : calculatePercentile S p = percentileSpec S p := by
  have hn1 : 1 ≤ S.length := List.length_pos.mpr hS
  by_cases hlen1 : S.length = 1
  · obtain ⟨a, rfl⟩ := List.length_eq_one.mp hlen1
    unfold calculatePercentile percentileSpec
    rw [interpAt_eq]
    norm_num
  · have hn1q : (0 : ℚ) ≤ (S.length : ℚ) - 1 := by
      have hc : (1 : ℚ) ≤ (S.length : ℚ) := by exact_mod_cast hn1
      linarith
    have hi0 : 0 ≤ p * ((S.length : ℚ) - 1) := mul_nonneg hp0 hn1q
    have hfl0 : (0 : ℤ) ≤ ⌊p * ((S.length : ℚ) - 1)⌋ := Int.floor_nonneg.mpr hi0
    unfold calculatePercentile
    rw [if_neg hS, if_neg hlen1]
    by_cases heq : (⌊p * ((S.length : ℚ) - 1)⌋).toNat
        = (⌈p * ((S.length : ℚ) - 1)⌉).toNat
    · rw [if_pos heq]
      have hcl0 : (0 : ℤ) ≤ ⌈p * ((S.length : ℚ) - 1)⌉ := Int.ceil_nonneg hi0
      have hfc : ⌊p * ((S.length : ℚ) - 1)⌋ = ⌈p * ((S.length : ℚ) - 1)⌉ := by omega
      have hint : p * ((S.length : ℚ) - 1)
          = ((⌊p * ((S.length : ℚ) - 1)⌋ : ℤ) : ℚ) := by
        have h1 := Int.floor_le (p * ((S.length : ℚ) - 1))
        have h2 := Int.le_ceil (p * ((S.length : ℚ) - 1))
        rw [← hfc] at h2
        exact le_antisymm h2 h1
      unfold percentileSpec
      rw [interpAt_int S _ hi0 hint]
    · rw [if_neg heq]
      rfl

theorem calculatePercentile_mono (S : List ℚ) (hs : S.Sorted (· ≤ ·)) (hS : S ≠ [])
    (p q : ℚ) (hp0 : 0 ≤ p) (hpq : p ≤ q) (hq1 : q ≤ 1) :
    calculatePercentile S p ≤ calculatePercentile S q := by
  have hn1q : (0 : ℚ) ≤ (S.length : ℚ) - 1 := by
    have hc : (1 : ℚ) ≤ (S.length : ℚ) := by
      exact_mod_cast List.length_pos.mpr hS
    linarith
  rw [calculatePercentile_eq_spec S p hS hp0,
    calculatePercentile_eq_spec S q hS (le_trans hp0 hpq)]
  unfold percentileSpec
  apply interpAt_mono S hs hS _ _ (mul_nonneg hp0 hn1q)
    (mul_le_mul_of_nonneg_right hpq hn1q)
  calc q * ((S.length : ℚ) - 1) ≤ 1 * ((S.length : ℚ) - 1) :=
        mul_le_mul_of_nonneg_right hq1 hn1q
    _ = (S.length : ℚ) - 1 := one_mul _

theorem calculatePercentile_zero (S : List ℚ) (hS : S ≠ []) :
    calculatePercentile S 0 = S.getD 0 0 := by
  unfold calculatePercentile
  rw [if_neg hS]
  by_cases h1 : S.length = 1
  · rw [if_pos h1]
  · rw [if_neg h1]
    norm_num

theorem calculatePercentile_one (S : List ℚ) (hS : S ≠ []) :
    calculatePercentile S 1 = S.getLastD 0 := by
  have hn1 : 1 ≤ S.length := List.length_pos.mpr hS
  unfold calculatePercentile
  rw [if_neg hS]
  by_cases h1 : S.length = 1
  · rw [if_pos h1]
    obtain ⟨a, rfl⟩ := List.length_eq_one.mp h1
    rfl
  · rw [if_neg h1]
    have hcast : (S.length : ℚ) - 1 = ((S.length - 1 : ℕ) : ℚ) :=
      (Nat.cast_sub hn1).symm
    simp only [one_mul, hcast, Int.floor_natCast, Int.ceil_natCast, Int.toNat_natCast,
      eq_self_iff_true, if_true]
    exact (getLastD_eq_getD S 0 hS).symm

/-! # Claim C8 — percentile function -/

/-- C8: `calculatePercentile` computes the spec's interpolation formula
`S[lo]·(1−w) + S[hi]·w` (with `i = p·(n−1)`, `lo = ⌊i⌋`, `hi = ⌈i⌉`,
`w = i − lo`); on a sorted non-empty list with `p ∈ [0,1]` the result lies
between the first element (the minimum) and the last element (the
maximum); `p = 0` returns the minimum and `p = 1` the maximum; and on
`[1..10]` the p95 is 9.55 and the p99 is 9.91. -/
theorem C8_percentile_correct :
    (∀ (S : List ℚ) (p : ℚ), S.Sorted (· ≤ ·) → S ≠ [] → 0 ≤ p → p ≤ 1 →
      (calculatePercentile S p = percentileSpec S p ∧
       S.getD 0 0 ≤ calculatePercentile S p ∧
       calculatePercentile S p ≤ S.getLastD 0 ∧
       (∀ x ∈ S, S.getD 0 0 ≤ x) ∧
       (∀ x ∈ S, x ≤ S.getLastD 0) ∧
       calculatePercentile S 0 = S.getD 0 0 ∧
       calculatePercentile S 1 = S.getLastD 0)) ∧
    calculatePercentile [1, 2, 3, 4, 5, 6, 7, 8, 9, 10] (95/100) = 191/20 ∧
    calculatePercentile [1, 2, 3, 4, 5, 6, 7, 8, 9, 10] (99/100) = 991/100 := by
  refine ⟨?_, ?_, ?_⟩
  · intro S p hs hS hp0 hp1
    have heq := calculatePercentile_eq_spec S p hS hp0
    have hn1q : (0 : ℚ) ≤ (S.length : ℚ) - 1 := by
      have hc : (1 : ℚ) ≤ (S.length : ℚ) := by
        exact_mod_cast List.length_pos.mpr hS
      linarith
    have hi0 : 0 ≤ p * ((S.length : ℚ) - 1) := mul_nonneg hp0 hn1q
    have hin : p * ((S.length : ℚ) - 1) ≤ (S.length : ℚ) - 1 := by
      calc p * ((S.length : ℚ) - 1) ≤ 1 * ((S.length : ℚ) - 1) :=
            mul_le_mul_of_nonneg_right hp1 hn1q
        _ = (S.length : ℚ) - 1 := one_mul _
    obtain ⟨hlo, hhi, _⟩ := interp_index_lt S (p * ((S.length : ℚ) - 1)) hS hin hi0
    obtain ⟨hb1, hb2⟩ := interpAt_bounds S hs (p * ((S.length : ℚ) - 1)) hS hi0 hin
    refine ⟨heq, ?_, ?_, ?_, ?_, ?_, ?_⟩
    · rw [heq]
      exact le_trans (sorted_getD_mono S hs 0 _ (Nat.zero_le _) hlo) hb1
    · rw [heq]
      refine le_trans hb2 ?_
      rw [getLastD_eq_getD S 0 hS]
      exact sorted_getD_mono S hs _ _ (by omega) (by omega)
    · exact fun x hx => sorted_getD_zero_le S hs x hx
    · exact fun x hx => sorted_le_getLastD S hs x hx
    · exact calculatePercentile_zero S hS
    · exact calculatePercentile_one S hS
  · rw [calculatePercentile_eq_spec _ _ (by simp) (by norm_num)]
    unfold percentileSpec
    have hidx : (95/100 : ℚ)
        * ((([1, 2, 3, 4, 5, 6, 7, 8, 9, 10] : List ℚ).length : ℚ) - 1) = 171/20 := by
      norm_num
    rw [hidx, interpAt_eq]
    have hf : ⌊(171/20 : ℚ)⌋ = 8 := by
      rw [Int.floor_eq_iff]
      norm_num
    have hc : ⌈(171/20 : ℚ)⌉ = 9 := by
      rw [Int.ceil_eq_iff]
      norm_num
    rw [hf, hc]
    have h8 : ([1, 2, 3, 4, 5, 6, 7, 8, 9, 10] : List ℚ).getD ((8 : ℤ).toNat) 0 = 9 := rfl
    have h9 : ([1, 2, 3, 4, 5, 6, 7, 8, 9, 10] : List ℚ).getD ((9 : ℤ).toNat) 0 = 10 := rfl
    rw [h8, h9, show ((((8 : ℤ).toNat : ℕ) : ℚ)) = 8 from by rw [show (8 : ℤ).toNat = (8 : ℕ) from rfl]; norm_num]
    norm_num
  · rw [calculatePercentile_eq_spec _ _ (by simp) (by norm_num)]
    unfold percentileSpec
    have hidx : (99/100 : ℚ)
        * ((([1, 2, 3, 4, 5, 6, 7, 8, 9, 10] : List ℚ).length : ℚ) - 1) = 891/100 := by
      norm_num
    rw [hidx, interpAt_eq]
    have hf : ⌊(891/100 : ℚ)⌋ = 8 := by
      rw [Int.floor_eq_iff]
      norm_num
    have hc : ⌈(891/100 : ℚ)⌉ = 9 := by
      rw [Int.ceil_eq_iff]
      norm_num
    rw [hf, hc]
    have h8 : ([1, 2, 3, 4, 5, 6, 7, 8, 9, 10] : List ℚ).getD ((8 : ℤ).toNat) 0 = 9 := rfl
    have h9 : ([1, 2, 3, 4, 5, 6, 7, 8, 9, 10] : List ℚ).getD ((9 : ℤ).toNat) 0 = 10 := rfl
    rw [h8, h9, show ((((8 : ℤ).toNat : ℕ) : ℚ)) = 8 from by rw [show (8 : ℤ).toNat = (8 : ℕ) from rfl]; norm_num]
    norm_num

/-- C8 witness: the universal part of the percentile theorem instantiated
on the sorted two-element list `[1, 2]` at `p = 1/2`. -/
theorem C8_percentile_witness :
    calculatePercentile [(1 : ℚ), 2] (1/2) = percentileSpec [(1 : ℚ), 2] (1/2) ∧
    ([(1 : ℚ), 2]).getD 0 0 ≤ calculatePercentile [(1 : ℚ), 2] (1/2) ∧
    calculatePercentile [(1 : ℚ), 2] (1/2) ≤ ([(1 : ℚ), 2]).getLastD 0 := by
  have h := C8_percentile_correct.1 [(1 : ℚ), 2] (1/2)
    (by norm_num [List.sorted_cons]) (by simp) (by norm_num) (by norm_num)
  exact ⟨h.1, h.2.1, h.2.2.1⟩

/-! # Claim C9 — aggregated statistics -/

/-- C9: for every sample list the produced `AggregatedStats` has
`count = |S|`; for non-empty input `min ≤ avg ≤ max` and `p95 ≤ p99`;
and empty input yields the all-zero record. -/
theorem C9_stats_correct :
    ∀ values : List ℚ,
      (calculateStats values).count = values.length ∧
      (values ≠ [] →
        (calculateStats values).min ≤ (calculateStats values).avg ∧
        (calculateStats values).avg ≤ (calculateStats values).max ∧
        (calculateStats values).p95 ≤ (calculateStats values).p99) ∧
      (values = [] → calculateStats values = ⟨0, 0, 0, 0, 0, 0⟩) := by
  intro values
  by_cases h : values = []
  · subst h
    exact ⟨rfl, fun hne => absurd rfl hne, fun _ => rfl⟩
  · have hperm := List.perm_insertionSort (· ≤ ·) values
    have hsort : (List.insertionSort (· ≤ ·) values).Sorted (· ≤ ·) :=
      List.sorted_insertionSort (· ≤ ·) values
    have hlen : (List.insertionSort (· ≤ ·) values).length = values.length :=
      hperm.length_eq
    have hne : List.insertionSort (· ≤ ·) values ≠ [] := by
      intro h0
      apply h
      rw [← List.length_eq_zero, ← hlen, h0]
      rfl
    have hpos : (0 : ℚ) < (values.length : ℚ) := by
      exact_mod_cast List.length_pos.mpr h
    refine ⟨?_, fun _ => ⟨?_, ?_, ?_⟩, fun he => absurd he h⟩
    · simp [calculateStats, h]
    · simp only [calculateStats, if_neg h]
      rw [le_div_iff₀ hpos]
      have hb : ∀ x ∈ values, (List.insertionSort (· ≤ ·) values).getD 0 0 ≤ x :=
        fun x hx => sorted_getD_zero_le _ hsort x (hperm.mem_iff.mpr hx)
      have hsum := List.card_nsmul_le_sum values _ hb
      rw [nsmul_eq_mul] at hsum
      rw [mul_comm]
      exact hsum
    · simp only [calculateStats, if_neg h]
      rw [div_le_iff₀ hpos]
      have hb : ∀ x ∈ values, x ≤ (List.insertionSort (· ≤ ·) values).getLastD 0 :=
        fun x hx => sorted_le_getLastD _ hsort x (hperm.mem_iff.mpr hx)
      have hsum := List.sum_le_card_nsmul values _ hb
      rw [nsmul_eq_mul] at hsum
      rw [mul_comm]
      exact hsum
    · simp only [calculateStats, if_neg h]
      exact calculatePercentile_mono _ hsort hne (95/100) (99/100)
        (by norm_num) (by norm_num) (by norm_num)

/-- C9 witness: the statistics theorem instantiated on `[1, 2]`. -/
theorem C9_stats_witness :
    (calculateStats [(1 : ℚ), 2]).min ≤ (calculateStats [(1 : ℚ), 2]).avg ∧
    (calculateStats [(1 : ℚ), 2]).avg ≤ (calculateStats [(1 : ℚ), 2]).max ∧
    (calculateStats [(1 : ℚ), 2]).p95 ≤ (calculateStats [(1 : ℚ), 2]).p99 :=
  (C9_stats_correct [(1 : ℚ), 2]).2.1 (by simp)

end Blackbox
